import Mathlib

/-!
# Verification of the sales-bonus aggregation engine

Shallow embedding of `src/main.js` (functions `calculateBonusByProfit` and
`analyzeSalesData`).  JavaScript numbers that can be NaN are modelled as
`Option ℚ` (`none` = NaN; the engine performs no division, so infinities
never arise from the modelled arithmetic).  Dynamic field values that feed
the numeric coercions (`Number(x ?? 0)`, `Number(x)`, `Number(x) || 0`) are
modelled by `JVal`: a field is either absent (`undefined`), holds a value
whose `Number` coercion is NaN (e.g. a non-numeric string), or holds a
value coercing to a rational.
-/

/-- One JavaScript number: `none` is NaN, `some q` the (exact) value `q`. -/
abbrev JNum := Option ℚ

/-- A dynamic field value as seen by the engine's numeric coercions:
`missing` = the property is absent / `undefined`; `nan` = a value whose
`Number` coercion is NaN; `num q` = a value coercing to the rational `q`. -/
inductive JVal where
  | missing : JVal
  | nan : JVal
  | num (q : ℚ) : JVal
deriving DecidableEq

/-- JS `+` on numbers: NaN propagates. -/
def jadd : JNum → JNum → JNum
  | some a, some b => some (a + b)
  | _, _ => none

/-- JS `-` on numbers: NaN propagates. -/
def jsub : JNum → JNum → JNum
  | some a, some b => some (a - b)
  | _, _ => none

/-- JS `*` on numbers: NaN propagates (the engine never multiplies NaN by 0
in a way our model would get wrong: in JS `NaN * 0 = NaN` as well). -/
def jmul : JNum → JNum → JNum
  | some a, some b => some (a * b)
  | _, _ => none

/-- `Number(v)` with no default: `Number(undefined)` is NaN. -/
def jNumber : JVal → JNum
  | .missing => none
  | .nan => none
  | .num q => some q

/-- `Number(v ?? 0)`: `??` replaces only `undefined`/`null` by `0`; a
NaN-coercing value still yields NaN. -/
def jNumberOrZero : JVal → JNum
  | .missing => some 0
  | .nan => none
  | .num q => some q

/-- `x || 0` on a number `x`: NaN (and `0` itself) are falsy, so the result
is always an actual rational. -/
def jOrZero : JNum → ℚ
  | none => 0
  | some q => q

/-- `Math.max(0, x)`: in JS `Math.max` returns NaN when any argument is NaN. -/
def jMaxZero : JNum → JNum
  | none => none
  | some q => some (max 0 q)

/-- `+Number(x).toFixed(2)` on an exact rational: round to 2 decimals.
`toFixed` picks, among the two nearest candidates, the larger one, i.e.
half-way cases round toward `+∞`: `⌊q·100 + 1/2⌋ / 100`. -/
def round2 (q : ℚ) : ℚ := (⌊q * 100 + 1/2⌋ : ℚ) / 100

/-- The source's helper `to2 = n => +Number(n ?? 0).toFixed(2)` applied to a
stored JS number (never `undefined`): NaN stays NaN (`toFixed` gives "NaN"). -/
def to2 : JNum → JNum
  | none => none
  | some q => some (round2 q)

/-- `to2` applied to a raw dynamic value (used for the bonus a caller-supplied
strategy returned): `n ?? 0` turns an `undefined` into `0` first. -/
def to2v (v : JVal) : JNum := to2 (jNumberOrZero v)

/-- Input seller record (`data.sellers` element): `id`, `first_name`,
`last_name`.  Identifiers are modelled as strings (`String(seller.id)` in the
output is then the identity). -/
structure Seller where
  id : String
  first_name : String
  last_name : String
deriving DecidableEq

/-- Input product record (`data.products` element): the engine reads `sku`
and `purchase_price` (the latter through a bare `Number(...)`, hence `JVal`). -/
structure Product where
  sku : String
  purchase_price : JVal
deriving DecidableEq

/-- One line item of a purchase record: the engine reads `sku` and
`quantity`; `sale_price` and `discount` are carried for revenue strategies. -/
structure LineItem where
  sku : String
  quantity : JVal
  sale_price : JVal
  discount : JVal
deriving DecidableEq

/-- Input purchase record (`data.purchase_records` element). -/
structure PurchaseRecord where
  seller_id : String
  total_amount : JVal
  items : List LineItem
deriving DecidableEq

/-- The mutable per-seller accumulator built by `analyzeSalesData`
(`sellerStats` element).  `products_sold` is a JS object used as a map; its
string keys enumerate in insertion order, so it is modelled as an
association list in insertion order with unique keys. -/
structure SellerStat where
  id : String
  name : String
  revenue : JNum
  profit : JNum
  sales_count : Nat
  products_sold : List (String × JNum)
deriving DecidableEq

/-- A `{sku, quantity}` pair of a `top_products` list. -/
structure TopProduct where
  sku : String
  quantity : JNum
deriving DecidableEq

/-- One element of the returned report. -/
structure ReportEntry where
  seller_id : String
  name : String
  revenue : JNum
  profit : JNum
  sales_count : Nat
  top_products : List TopProduct
  bonus : JNum
deriving DecidableEq

/-- Argument record for the standalone reference bonus strategy: it only
reads `seller.profit` (dynamically, hence `JVal`). -/
structure BonusSellerArg where
  profit : JVal
deriving DecidableEq

/-- `calculateBonusByProfit(index, total, seller)` from `src/main.js`:
`profit = Math.max(0, Number(seller.profit ?? 0))`; then
`index === 0` → 15%, `index === 1 || index === 2` → 10%,
`index === total - 1` → 0, otherwise 5%.  The comparison with `total - 1`
is JS integer arithmetic, modelled in `ℤ`. -/
def calculateBonusByProfit (index total : Nat) (seller : BonusSellerArg) : JNum :=
  let profit := jMaxZero (jNumberOrZero seller.profit)
  if index = 0 then
    jmul profit (some (15/100))
  else if index = 1 ∨ index = 2 then
    jmul profit (some (10/100))
  else if (index : ℤ) = (total : ℤ) - 1 then
    some 0
  else
    jmul profit (some (5/100))

/-- `calculateSimpleRevenue(purchase, _product)` from `src/main.js`:
destructuring defaults (`= 0`) fire on `undefined`;
`sale_price * quantity * (1 - discount/100)`. -/
def calculateSimpleRevenue (purchase : LineItem) (_product : Product) : JVal :=
  let discount := jNumberOrZero purchase.discount
  let sale_price := jNumberOrZero purchase.sale_price
  let quantity := jNumberOrZero purchase.quantity
  match jmul (jmul sale_price quantity) (jsub (some 1) (jmul discount (some (1/100)))) with
  | none => JVal.nan
  | some q => JVal.num q

/-- The shape of the `data` argument: `!data` (a falsy value) or an object
whose three collection fields each are an array or not (`Array.isArray` of a
missing field is also `false`, covered by `notArray`). -/
inductive ArrVal (α : Type) where
  | notArray : ArrVal α
  | arr (l : List α) : ArrVal α

/-- The `data` argument of `analyzeSalesData`. -/
inductive DataVal where
  | falsy : DataVal
  | obj (sellers : ArrVal Seller) (products : ArrVal Product)
      (purchase_records : ArrVal PurchaseRecord) : DataVal

/-- An option field that must be a function: absent/`undefined`, present but
not callable, or an actual function. -/
inductive FieldVal (α : Type) where
  | undef : FieldVal α
  | notCallable : FieldVal α
  | fn (f : α) : FieldVal α

/-- Is the field an actual function? -/
def FieldVal.isFn : FieldVal α → Bool
  | .fn _ => true
  | _ => false

/-- A revenue strategy as the engine sees it: called with (item, product),
returning an arbitrary dynamic value (coerced by `Number(...) || 0`). -/
abbrev RevFn := LineItem → Product → JVal

/-- A bonus strategy as the engine sees it: called with
(index, total, sellerStat), returning an arbitrary dynamic value. -/
abbrev BonusFn := Nat → Nat → SellerStat → JVal

/-- The `options` argument: `null`/`undefined`, a non-object
(`typeof options !== "object"`), or an object with the two strategy fields. -/
inductive OptionsVal where
  | nullish : OptionsVal
  | nonObject : OptionsVal
  | obj (calculateRevenue : FieldVal RevFn) (calculateBonus : FieldVal BonusFn) : OptionsVal

/-- The four distinct errors `analyzeSalesData` throws, by message:
"Некорректные входные данные", "Опции должны быть объектом",
"Переменные в опциях не определены",
"Переменные в опциях должны быть функциями". -/
inductive EngineError where
  | invalidInput : EngineError
  | optionsNotObject : EngineError
  | optionsFieldUndefined : EngineError
  | optionsFieldNotFunction : EngineError
deriving DecidableEq

/-- The spec groups the last three errors as `InvalidConfigurationError`. -/
def EngineError.isConfigError : EngineError → Prop
  | .invalidInput => False
  | _ => True

instance : DecidablePred EngineError.isConfigError := by
  intro e
  cases e <;> simp [EngineError.isConfigError] <;> infer_instance

/-- The zeroed accumulator `analyzeSalesData` builds per seller
(`data.sellers.map(seller => ({...}))`). -/
def initStat (s : Seller) : SellerStat :=
  { id := s.id
    name := s.first_name ++ " " ++ s.last_name
    revenue := some 0
    profit := some 0
    sales_count := 0
    products_sold := [] }

/-- `sellerStats` right after construction, before folding. -/
def initStats (sellers : List Seller) : List SellerStat :=
  sellers.map initStat

/-- Helper for `sellerIndexOf`: last position (counting from `base`) whose
stat has the given id. -/
def lastIdxFrom (stats : List SellerStat) (sid : String) (base : Nat) : Option Nat :=
  match stats with
  | [] => none
  | s :: rest =>
    match lastIdxFrom rest sid (base + 1) with
    | some i => some i
    | none => if s.id = sid then some base else none

/-- The `sellerIndex` object (`reduce((acc, s) => { acc[s.id] = s; ... })`):
a later assignment overwrites an earlier one, so looking up an id yields the
LAST stat with that id; modelled as its position in `stats`. -/
def sellerIndexOf (stats : List SellerStat) (sid : String) : Option Nat :=
  lastIdxFrom stats sid 0

/-- The `productIndex` object (`Object.fromEntries(products.map(p => [p.sku, p]))`):
a later entry overwrites an earlier one with the same sku. -/
def productIndexOf (products : List Product) (sku : String) : Option Product :=
  products.foldl (fun acc p => if p.sku = sku then some p else acc) none

/-- Is `products_sold[sku]` falsy (`!seller.products_sold[item.sku]`)?
Falsy when the key is absent (`undefined`), the stored number is NaN, or 0. -/
def soldFalsy : Option JNum → Bool
  | none => true
  | some none => true
  | some (some q) => q = 0

/-- Assignment `sold[sku] = v` on the products_sold object: update in place
when the key exists, append (insertion order) when it does not. -/
def soldSet : List (String × JNum) → String → JNum → List (String × JNum)
  | [], sku, v => [(sku, v)]
  | (k, w) :: rest, sku, v =>
    if k = sku then (k, v) :: rest else (k, w) :: soldSet rest sku v

/-- The body of `record.items.forEach(item => ...)`: look the product up by
sku (skip the item when absent), compute quantity, cost, strategy revenue
(`Number(...) || 0`) and item profit, accumulate the profit, and add the
quantity into `products_sold` (resetting a falsy slot to 0 first, exactly as
`if (!sold[sku]) sold[sku] = 0; sold[sku] += qty` does). -/
def processItem (calcRevenue : RevFn) (products : List Product)
    (st : SellerStat) (item : LineItem) : SellerStat :=
  match productIndexOf products item.sku with
  | none => st
  | some product =>
    let qty := jNumberOrZero item.quantity
    let cost := jmul (jNumber product.purchase_price) qty
    let revenue := jOrZero (jNumber (calcRevenue item product))
    let profit := jsub (some revenue) cost
    let sold0 := st.products_sold
    let sold1 := if soldFalsy (sold0.lookup item.sku) then soldSet sold0 item.sku (some 0) else sold0
    let sold2 := soldSet sold1 item.sku (jadd ((sold1.lookup item.sku).getD none) qty)
    { st with profit := jadd st.profit profit, products_sold := sold2 }

/-- The body of `data.purchase_records.forEach(record => ...)`: look the
seller up in the (fixed) seller index — skipping the whole record when
absent — then bump `sales_count`, add the coerced `total_amount` to
`revenue`, and fold the record's items. -/
def processRecord (calcRevenue : RevFn) (products : List Product)
    (sIdx : String → Option Nat) (stats : List SellerStat)
    (record : PurchaseRecord) : List SellerStat :=
  match sIdx record.seller_id with
  | none => stats
  | some i =>
    match stats[i]? with
    | none => stats
    | some st =>
      let st1 := { st with
        sales_count := st.sales_count + 1
        revenue := jadd st.revenue (jNumberOrZero record.total_amount) }
      let st2 := record.items.foldl (processItem calcRevenue products) st1
      stats.set i st2

/-- `sellerStats` after the whole fold over `purchase_records` (the seller
index is built once, from the initial stats, exactly as in the source). -/
def foldedStats (calcRevenue : RevFn) (sellers : List Seller)
    (products : List Product) (records : List PurchaseRecord) : List SellerStat :=
  let stats := initStats sellers
  records.foldl (processRecord calcRevenue products (sellerIndexOf stats)) stats

/-- The JS sort comparator `(a, b) => (b.profit ?? 0) - (a.profit ?? 0)` and
`(a, b) => b.quantity - a.quantity`, generically over a numeric key: per the
ECMAScript `SortCompare` operation, a NaN comparator result counts as `+0`. -/
def cmpOf (k : α → JNum) (a b : α) : ℚ :=
  match k b, k a with
  | some qb, some qa => qb - qa
  | _, _ => 0

/-- Stable insertion of `x` into a sorted prefix: `x` goes after every
element the comparator does not place strictly after it. -/
def sInsert (cmp : α → α → ℚ) (x : α) : List α → List α
  | [] => [x]
  | y :: ys => if cmp y x ≤ 0 then y :: sInsert cmp x ys else x :: y :: ys

/-- `Array.prototype.sort(cmp)`: ECMAScript requires a stable sort, and for a
consistent comparator every stable sort yields the same list; modelled as
stable insertion sort.  (For an inconsistent comparator — possible only when
NaN keys mix with numeric ones — the JS result is implementation-defined;
the theorems about ordering assume numeric keys.) -/
def jsSort (cmp : α → α → ℚ) (l : List α) : List α :=
  l.foldl (fun acc x => sInsert cmp x acc) []

/-- `sellerStats.sort((a, b) => (b.profit ?? 0) - (a.profit ?? 0))`: `profit`
is always a JS number here (never nullish), so `?? 0` never fires and only
the NaN-to-`+0` rule of `SortCompare` matters, as in `cmpOf`. -/
def rankedStats (calcRevenue : RevFn) (sellers : List Seller)
    (products : List Product) (records : List PurchaseRecord) : List SellerStat :=
  jsSort (cmpOf SellerStat.profit) (foldedStats calcRevenue sellers products records)

/-- `Object.entries(sold).map(([sku, quantity]) => ({sku, quantity}))
.sort((a,b) => b.quantity - a.quantity).slice(0, 10)`. -/
def topProducts (sold : List (String × JNum)) : List TopProduct :=
  ((jsSort (cmpOf TopProduct.quantity)
    (sold.map fun p => { sku := p.1, quantity := p.2 }))).take 10

/-- The report entry for the seller at sorted position `i` of `total`: the
source first stores `bonus` and `top_products` on the stat, then maps it to
the plain output object; fused here into one constructor with the same
field values (`String(seller.id)` is the identity on our string ids). -/
def mkReportEntry (calcBonus : BonusFn) (total i : Nat) (st : SellerStat) : ReportEntry :=
  { seller_id := st.id
    name := st.name
    revenue := to2 st.revenue
    profit := to2 st.profit
    sales_count := st.sales_count
    top_products := topProducts st.products_sold
    bonus := to2v (calcBonus i total st) }

/-- Index-passing map (`forEach((seller, index) => ...)` + final `map`). -/
def mapWithIndex (f : Nat → α → β) : Nat → List α → List β
  | _, [] => []
  | i, x :: xs => f i x :: mapWithIndex f (i + 1) xs

/-- Everything `analyzeSalesData` does after validation succeeds. -/
def runEngine (calcRevenue : RevFn) (calcBonus : BonusFn) (sellers : List Seller)
    (products : List Product) (records : List PurchaseRecord) : List ReportEntry :=
  let ranked := rankedStats calcRevenue sellers products records
  mapWithIndex (fun i st => mkReportEntry calcBonus ranked.length i st) 0 ranked

/-- `analyzeSalesData(data, options)`: the validation chain of the source in
order — falsy `data` / non-array / empty collection → "Некорректные входные
данные"; `options == null || typeof options !== "object"` → "Опции должны
быть объектом"; a destructured strategy `=== undefined` → "Переменные в
опциях не определены"; a non-function strategy → "Переменные в опциях
должны быть функциями"; otherwise the full report. -/
def analyzeSalesData (data : DataVal) (options : OptionsVal) :
    Except EngineError (List ReportEntry) :=
  match data with
  | .falsy => .error .invalidInput
  | .obj sv pv rv =>
    match sv, pv, rv with
    | .arr sellers, .arr products, .arr records =>
      if sellers.isEmpty || products.isEmpty || records.isEmpty then
        .error .invalidInput
      else
        match options with
        | .nullish => .error .optionsNotObject
        | .nonObject => .error .optionsNotObject
        | .obj cr cb =>
          match cr, cb with
          | .undef, _ => .error .optionsFieldUndefined
          | _, .undef => .error .optionsFieldUndefined
          | .notCallable, _ => .error .optionsFieldNotFunction
          | _, .notCallable => .error .optionsFieldNotFunction
          | .fn f, .fn g => .ok (runEngine f g sellers products records)
    | _, _, _ => .error .invalidInput

/-! ## Generic lemmas about the JS stable sort model -/

theorem sInsert_perm (cmp : α → α → ℚ) (x : α) :
    ∀ l : List α, (sInsert cmp x l).Perm (x :: l) := by
  intro l
  induction l with
  | nil => simp [sInsert]
  | cons y ys ih =>
    unfold sInsert
    by_cases h : cmp y x ≤ 0
    · simp only [if_pos h]
      exact (ih.cons y).trans (List.Perm.swap x y ys)
    · simp [if_neg h]

theorem jsSortAux_perm (cmp : α → α → ℚ) :
    ∀ (l acc : List α), (l.foldl (fun a x => sInsert cmp x a) acc).Perm (l ++ acc) := by
  intro l
  induction l with
  | nil => intro acc; simp
  | cons x xs ih =>
    intro acc
    simp only [List.foldl_cons, List.cons_append]
    exact (ih (sInsert cmp x acc)).trans
      (((sInsert_perm cmp x acc).append_left xs).trans List.perm_middle)

theorem jsSort_perm (cmp : α → α → ℚ) (l : List α) : (jsSort cmp l).Perm l := by
  simpa using jsSortAux_perm cmp l []

theorem jsSort_length (cmp : α → α → ℚ) (l : List α) :
    (jsSort cmp l).length = l.length :=
  (jsSort_perm cmp l).length_eq

theorem cmpOf_eq_of_some (k : α → JNum) {a b : α} {qa qb : ℚ}
    (ha : k a = some qa) (hb : k b = some qb) : cmpOf k a b = qb - qa := by
  simp [cmpOf, ha, hb]

theorem sInsert_key_pairwise (k : α → JNum) {x : α} {l : List α}
    (hx : (k x).isSome) (hl : ∀ y ∈ l, (k y).isSome)
    (hs : l.Pairwise fun a b => (k b).getD 0 ≤ (k a).getD 0) :
    (sInsert (cmpOf k) x l).Pairwise fun a b => (k b).getD 0 ≤ (k a).getD 0 := by
  obtain ⟨qx, hqx⟩ := Option.isSome_iff_exists.mp hx
  induction l with
  | nil => simp [sInsert]
  | cons y ys ih =>
    obtain ⟨qy, hqy⟩ := Option.isSome_iff_exists.mp (hl y (by simp))
    rw [List.pairwise_cons] at hs
    unfold sInsert
    by_cases h : cmpOf k y x ≤ 0
    · rw [if_pos h]
      rw [cmpOf_eq_of_some k hqy hqx, sub_nonpos] at h
      refine List.pairwise_cons.mpr ⟨?_, ih (fun z hz => hl z (by simp [hz])) hs.2⟩
      intro b hb
      rcases List.mem_cons.mp (((sInsert_perm (cmpOf k) x ys).mem_iff).mp hb) with hbx | hby
      · subst hbx; simp [hqx, hqy, h]
      · exact hs.1 b hby
    · rw [if_neg h]
      rw [cmpOf_eq_of_some k hqy hqx, not_le, sub_pos] at h
      refine List.pairwise_cons.mpr ⟨?_, List.pairwise_cons.mpr hs⟩
      intro b hb
      rcases List.mem_cons.mp hb with hby | hbys
      · subst hby; simp [hqx, hqy, le_of_lt h]
      · have hb' := hs.1 b hbys
        obtain ⟨qb, hqb⟩ := Option.isSome_iff_exists.mp (hl b (by simp [hbys]))
        simp only [hqb, hqy, Option.getD_some] at hb'
        simp [hqb, hqx, le_of_lt (lt_of_le_of_lt hb' h)]

theorem sInsert_key_filter (k : α → JNum) {x : α} {l : List α}
    (hx : (k x).isSome) (hl : ∀ y ∈ l, (k y).isSome)
    (hs : l.Pairwise fun a b => (k b).getD 0 ≤ (k a).getD 0) (q : ℚ) :
    (sInsert (cmpOf k) x l).filter (fun y => decide (k y = some q)) =
      l.filter (fun y => decide (k y = some q)) ++
        (if k x = some q then [x] else []) := by
  obtain ⟨qx, hqx⟩ := Option.isSome_iff_exists.mp hx
  induction l with
  | nil =>
    by_cases hq : k x = some q <;> simp [sInsert, List.filter, hq]
  | cons y ys ih =>
    obtain ⟨qy, hqy⟩ := Option.isSome_iff_exists.mp (hl y (by simp))
    rw [List.pairwise_cons] at hs
    unfold sInsert
    by_cases h : cmpOf k y x ≤ 0
    · rw [if_pos h, List.filter_cons, List.filter_cons,
        ih (fun z hz => hl z (by simp [hz])) hs.2]
      by_cases hyq : k y = some q <;> simp [hyq]
    · rw [if_neg h]
      rw [cmpOf_eq_of_some k hqy hqx, not_le, sub_pos] at h
      have hlt : ∀ b ∈ y :: ys, ∃ qb, k b = some qb ∧ qb < qx := by
        intro b hb
        obtain ⟨qb, hqb⟩ := Option.isSome_iff_exists.mp (hl b hb)
        refine ⟨qb, hqb, ?_⟩
        rcases List.mem_cons.mp hb with hby | hbys
        · subst hby
          rwa [Option.some.inj (hqy.symm.trans hqb)] at h
        · have hb' := hs.1 b hbys
          rw [hqb, hqy, Option.getD_some, Option.getD_some] at hb'
          exact lt_of_le_of_lt hb' h
      by_cases hq : k x = some q
      · have hqxq : qx = q := Option.some.inj (hqx.symm.trans hq)
        subst hqxq
        have hempty : (y :: ys).filter (fun z => decide (k z = some qx)) = [] := by
          rw [List.filter_eq_nil_iff]
          intro b hb
          obtain ⟨qb, hqb, hblt⟩ := hlt b hb
          simp [hqb, ne_of_lt hblt]
        rw [List.filter_cons_of_pos (by simp [hq]), hempty, if_pos hq]
        simp
      · rw [if_neg hq, List.append_nil, List.filter_cons_of_neg (by simp [hq])]

theorem jsSortAux_key_spec (k : α → JNum) :
    ∀ (l acc : List α), (∀ y ∈ l, (k y).isSome) → (∀ y ∈ acc, (k y).isSome) →
    (acc.Pairwise fun a b => (k b).getD 0 ≤ (k a).getD 0) →
    ((l.foldl (fun a x => sInsert (cmpOf k) x a) acc).Pairwise
        fun a b => (k b).getD 0 ≤ (k a).getD 0) ∧
      ∀ q, (l.foldl (fun a x => sInsert (cmpOf k) x a) acc).filter
            (fun y => decide (k y = some q)) =
          acc.filter (fun y => decide (k y = some q)) ++
            l.filter (fun y => decide (k y = some q)) := by
  intro l
  induction l with
  | nil => intro acc _ hacc hs; exact ⟨hs, fun q => by simp⟩
  | cons x xs ih =>
    intro acc hl hacc hs
    have hx : (k x).isSome := hl x (by simp)
    have hxs : ∀ y ∈ xs, (k y).isSome := fun y hy => hl y (by simp [hy])
    have hacc' : ∀ y ∈ sInsert (cmpOf k) x acc, (k y).isSome := by
      intro y hy
      rcases List.mem_cons.mp ((sInsert_perm (cmpOf k) x acc).mem_iff.mp hy) with h | h
      · subst h; exact hx
      · exact hacc y h
    have hs' := sInsert_key_pairwise k hx hacc hs
    obtain ⟨hps, hpf⟩ := ih (sInsert (cmpOf k) x acc) hxs hacc' hs'
    refine ⟨hps, fun q => ?_⟩
    rw [List.foldl_cons, hpf q, sInsert_key_filter k hx hacc hs q, List.filter_cons]
    by_cases hxq : k x = some q <;> simp [hxq]

theorem jsSort_key_pairwise (k : α → JNum) (l : List α)
    (h : ∀ y ∈ l, (k y).isSome) :
    (jsSort (cmpOf k) l).Pairwise fun a b => (k b).getD 0 ≤ (k a).getD 0 :=
  (jsSortAux_key_spec k l [] h (by simp) (by simp)).1

theorem jsSort_key_filter (k : α → JNum) (l : List α)
    (h : ∀ y ∈ l, (k y).isSome) (q : ℚ) :
    (jsSort (cmpOf k) l).filter (fun y => decide (k y = some q)) =
      l.filter (fun y => decide (k y = some q)) := by
  simpa using (jsSortAux_key_spec k l [] h (by simp) (by simp)).2 q

/-! ## Generic list helpers -/

theorem mapWithIndex_length (f : Nat → α → β) :
    ∀ (b : Nat) (l : List α), (mapWithIndex f b l).length = l.length := by
  intro b l
  induction l generalizing b with
  | nil => rfl
  | cons x xs ih => simp [mapWithIndex, ih]

theorem mapWithIndex_getElem? (f : Nat → α → β) :
    ∀ (b : Nat) (l : List α) (j : Nat),
      (mapWithIndex f b l)[j]? = (l[j]?).map (f (b + j)) := by
  intro b l
  induction l generalizing b with
  | nil => intro j; simp [mapWithIndex]
  | cons x xs ih =>
    intro j
    cases j with
    | zero => simp [mapWithIndex]
    | succ j =>
      simp only [mapWithIndex, List.getElem?_cons_succ, ih (b + 1) j]
      ring_nf

theorem list_set_same : ∀ (l : List β) (i : Nat) (a : β),
    l[i]? = some a → l.set i a = l := by
  intro l
  induction l with
  | nil => intro i a h; simp at h
  | cons x xs ih =>
    intro i a h
    cases i with
    | zero => simp at h; simp [List.set, h]
    | succ i => simp at h; simp [List.set, ih i a h]

/-! ## Lookup-table lemmas -/

theorem productIndexOf_aux_mem : ∀ (l : List Product) (init : Option Product)
    (sku : String) (p : Product),
    l.foldl (fun acc x => if x.sku = sku then some x else acc) init = some p →
    init = some p ∨ (p ∈ l ∧ p.sku = sku) := by
  intro l
  induction l with
  | nil => intro init sku p h; exact .inl h
  | cons x xs ih =>
    intro init sku p h
    rw [List.foldl_cons] at h
    rcases ih _ sku p h with hinit | hmem
    · by_cases hx : x.sku = sku
      · rw [if_pos hx] at hinit
        have hxp : x = p := Option.some.inj hinit
        subst hxp
        exact .inr ⟨by simp, hx⟩
      · rw [if_neg hx] at hinit
        exact .inl hinit
    · exact .inr ⟨by simp [hmem.1], hmem.2⟩

theorem productIndexOf_mem {products : List Product} {sku : String} {p : Product}
    (h : productIndexOf products sku = some p) : p ∈ products ∧ p.sku = sku := by
  rcases productIndexOf_aux_mem products none sku p h with hinit | hmem
  · simp at hinit
  · exact hmem

theorem productIndexOf_eq_none {products : List Product} {sku : String}
    (h : ∀ p ∈ products, p.sku ≠ sku) : productIndexOf products sku = none := by
  unfold productIndexOf
  induction products with
  | nil => rfl
  | cons x xs ih =>
    rw [List.foldl_cons, if_neg (h x (by simp))]
    exact ih fun p hp => h p (by simp [hp])

theorem lastIdxFrom_shift (sid : String) :
    ∀ (stats : List SellerStat) (b : Nat),
      lastIdxFrom stats sid (b + 1) = (lastIdxFrom stats sid b).map (· + 1) := by
  intro stats
  induction stats with
  | nil => intro b; rfl
  | cons s rest ih =>
    intro b
    unfold lastIdxFrom
    rw [ih (b + 1)]
    cases hr : lastIdxFrom rest sid (b + 1) with
    | some i => simp [hr]
    | none =>
      by_cases hid : s.id = sid <;> simp [hr, hid]

theorem lastIdxFrom_zero_some {stats : List SellerStat} {sid : String} {i : Nat}
    (h : lastIdxFrom stats sid 0 = some i) :
    ∃ s, stats[i]? = some s ∧ s.id = sid := by
  induction stats generalizing i with
  | nil => simp [lastIdxFrom] at h
  | cons s rest ih =>
    unfold lastIdxFrom at h
    rw [lastIdxFrom_shift sid rest 0] at h
    cases h0 : lastIdxFrom rest sid 0 with
    | some j =>
      rw [h0] at h
      simp only [Option.map_some'] at h
      obtain ⟨t, ht, hid⟩ := ih (i := j) h0
      have : i = j + 1 := (Option.some.inj h).symm
      subst this
      exact ⟨t, by simpa using ht, hid⟩
    | none =>
      rw [h0] at h
      simp only [Option.map_none'] at h
      by_cases hid : s.id = sid
      · rw [if_pos hid] at h
        have : i = 0 := (Option.some.inj h).symm
        subst this
        exact ⟨s, by simp, hid⟩
      · rw [if_neg hid] at h
        exact absurd h (by simp)

theorem sellerIndexOf_some {stats : List SellerStat} {sid : String} {i : Nat}
    (h : sellerIndexOf stats sid = some i) :
    ∃ s, stats[i]? = some s ∧ s.id = sid :=
  lastIdxFrom_zero_some h

theorem sellerIndexOf_lt {stats : List SellerStat} {sid : String} {i : Nat}
    (h : sellerIndexOf stats sid = some i) : i < stats.length := by
  obtain ⟨s, hs, _⟩ := sellerIndexOf_some h
  exact List.getElem?_eq_some.mp hs |>.1

theorem lastIdxFrom_isSome_of_mem {stats : List SellerStat} {sid : String}
    (h : ∃ s ∈ stats, s.id = sid) : ∀ b, (lastIdxFrom stats sid b).isSome := by
  induction stats with
  | nil => obtain ⟨s, hs, _⟩ := h; simp at hs
  | cons t rest ih =>
    intro b
    obtain ⟨s, hs, hid⟩ := h
    unfold lastIdxFrom
    rcases List.mem_cons.mp hs with hst | hsr
    · cases hr : lastIdxFrom rest sid (b + 1) with
      | some j => simp
      | none => subst hst; simp [hid]
    · cases hr : lastIdxFrom rest sid (b + 1) with
      | some j => simp
      | none =>
        have := ih ⟨s, hsr, hid⟩ (b + 1)
        rw [hr] at this
        simp at this

theorem sellerIndexOf_isSome_iff {stats : List SellerStat} {sid : String} :
    (sellerIndexOf stats sid).isSome ↔ ∃ s ∈ stats, s.id = sid := by
  constructor
  · intro h
    obtain ⟨i, hi⟩ := Option.isSome_iff_exists.mp h
    obtain ⟨s, hs, hid⟩ := sellerIndexOf_some hi
    exact ⟨s, List.getElem?_mem hs, hid⟩
  · intro h
    exact lastIdxFrom_isSome_of_mem h 0

/-! ## Preservation lemmas about the fold -/

theorem processItem_id (c : RevFn) (products : List Product)
    (st : SellerStat) (item : LineItem) :
    (processItem c products st item).id = st.id := by
  unfold processItem
  cases productIndexOf products item.sku <;> rfl

theorem processItem_name (c : RevFn) (products : List Product)
    (st : SellerStat) (item : LineItem) :
    (processItem c products st item).name = st.name := by
  unfold processItem
  cases productIndexOf products item.sku <;> rfl

theorem processItem_revenue (c : RevFn) (products : List Product)
    (st : SellerStat) (item : LineItem) :
    (processItem c products st item).revenue = st.revenue := by
  unfold processItem
  cases productIndexOf products item.sku <;> rfl

theorem processItem_sales_count (c : RevFn) (products : List Product)
    (st : SellerStat) (item : LineItem) :
    (processItem c products st item).sales_count = st.sales_count := by
  unfold processItem
  cases productIndexOf products item.sku <;> rfl

theorem foldItems_id (c : RevFn) (products : List Product) :
    ∀ (items : List LineItem) (st : SellerStat),
      (items.foldl (processItem c products) st).id = st.id := by
  intro items
  induction items with
  | nil => intro st; rfl
  | cons it its ih => intro st; rw [List.foldl_cons, ih, processItem_id]

theorem foldItems_name (c : RevFn) (products : List Product) :
    ∀ (items : List LineItem) (st : SellerStat),
      (items.foldl (processItem c products) st).name = st.name := by
  intro items
  induction items with
  | nil => intro st; rfl
  | cons it its ih => intro st; rw [List.foldl_cons, ih, processItem_name]

theorem foldItems_revenue (c : RevFn) (products : List Product) :
    ∀ (items : List LineItem) (st : SellerStat),
      (items.foldl (processItem c products) st).revenue = st.revenue := by
  intro items
  induction items with
  | nil => intro st; rfl
  | cons it its ih => intro st; rw [List.foldl_cons, ih, processItem_revenue]

theorem foldItems_sales_count (c : RevFn) (products : List Product) :
    ∀ (items : List LineItem) (st : SellerStat),
      (items.foldl (processItem c products) st).sales_count = st.sales_count := by
  intro items
  induction items with
  | nil => intro st; rfl
  | cons it its ih => intro st; rw [List.foldl_cons, ih, processItem_sales_count]

theorem processRecord_length (c : RevFn) (products : List Product)
    (sIdx : String → Option Nat) (stats : List SellerStat) (r : PurchaseRecord) :
    (processRecord c products sIdx stats r).length = stats.length := by
  unfold processRecord
  split
  · rfl
  · split
    · rfl
    · simp

theorem foldRecords_length (c : RevFn) (products : List Product)
    (sIdx : String → Option Nat) :
    ∀ (records : List PurchaseRecord) (stats : List SellerStat),
      (records.foldl (processRecord c products sIdx) stats).length = stats.length := by
  intro records
  induction records with
  | nil => intro stats; rfl
  | cons r rs ih =>
    intro stats
    rw [List.foldl_cons, ih, processRecord_length]

theorem processRecord_getElem_ne (c : RevFn) (products : List Product)
    (sIdx : String → Option Nat) (stats : List SellerStat) (r : PurchaseRecord)
    (j : Nat) (h : ∀ i, sIdx r.seller_id = some i → i ≠ j) :
    (processRecord c products sIdx stats r)[j]? = stats[j]? := by
  unfold processRecord
  split
  · rfl
  · rename_i i hs
    split
    · rfl
    · exact List.getElem?_set_ne (h i hs)

theorem foldRecords_getElem_ne (c : RevFn) (products : List Product)
    (sIdx : String → Option Nat) :
    ∀ (records : List PurchaseRecord) (stats : List SellerStat) (j : Nat),
      (∀ r ∈ records, ∀ i, sIdx r.seller_id = some i → i ≠ j) →
      (records.foldl (processRecord c products sIdx) stats)[j]? = stats[j]? := by
  intro records
  induction records with
  | nil => intro stats j _; rfl
  | cons r rs ih =>
    intro stats j h
    rw [List.foldl_cons, ih _ j (fun r' hr' => h r' (by simp [hr'])),
      processRecord_getElem_ne _ _ _ _ _ _ (h r (by simp))]

theorem processRecord_map_id (c : RevFn) (products : List Product)
    (sIdx : String → Option Nat) (stats : List SellerStat) (r : PurchaseRecord) :
    (processRecord c products sIdx stats r).map SellerStat.id =
      stats.map SellerStat.id := by
  unfold processRecord
  split
  · rfl
  · rename_i i hs
    split
    · rfl
    · rename_i st hst
      rw [List.map_set]
      apply list_set_same
      rw [List.getElem?_map, hst, Option.map_some']
      simp [foldItems_id]

theorem foldRecords_map_id (c : RevFn) (products : List Product)
    (sIdx : String → Option Nat) :
    ∀ (records : List PurchaseRecord) (stats : List SellerStat),
      (records.foldl (processRecord c products sIdx) stats).map SellerStat.id =
        stats.map SellerStat.id := by
  intro records
  induction records with
  | nil => intro stats; rfl
  | cons r rs ih =>
    intro stats
    rw [List.foldl_cons, ih, processRecord_map_id]

theorem mem_mapWithIndex {f : Nat → α → β} {e : β} :
    ∀ {b : Nat} {l : List α}, e ∈ mapWithIndex f b l →
      ∃ i x, l[i]? = some x ∧ e = f (b + i) x := by
  intro b l
  induction l generalizing b with
  | nil => intro h; simp [mapWithIndex] at h
  | cons x xs ih =>
    intro h
    rcases List.mem_cons.mp h with he | he
    · exact ⟨0, x, by simp, by simpa using he⟩
    · obtain ⟨i, y, hy, hey⟩ := ih he
      exact ⟨i + 1, y, by simpa using hy, by rw [hey]; ring_nf⟩

/-! ## Revenue bookkeeping (for the conservation property) -/

/-- Sum of the accumulated (pre-rounding) revenues of a stats list, read as
rationals (the theorems using it carry the hypothesis that no revenue is NaN). -/
def statRevSum (stats : List SellerStat) : ℚ :=
  (stats.map fun s => s.revenue.getD 0).sum

theorem map_sum_set (f : SellerStat → ℚ) :
    ∀ (stats : List SellerStat) (i : Nat) (st st' : SellerStat),
      stats[i]? = some st →
      ((stats.set i st').map f).sum = (stats.map f).sum - f st + f st' := by
  intro stats
  induction stats with
  | nil => intro i st st' h; simp at h
  | cons x xs ih =>
    intro i st st' h
    cases i with
    | zero =>
      simp only [List.getElem?_cons_zero] at h
      rw [Option.some.inj h]
      simp [List.set]
      ring
    | succ i =>
      simp only [List.getElem?_cons_succ] at h
      simp only [List.set, List.map_cons, List.sum_cons, ih i st st' h]
      ring

theorem processRecord_revSum (c : RevFn) (products : List Product)
    (sIdx : String → Option Nat) (stats : List SellerStat) (r : PurchaseRecord)
    (hrev : ∀ s ∈ stats, s.revenue.isSome)
    (hta : (jNumberOrZero r.total_amount).isSome)
    (hvalid : ∀ i, sIdx r.seller_id = some i → i < stats.length) :
    statRevSum (processRecord c products sIdx stats r) =
      statRevSum stats +
        (if (sIdx r.seller_id).isSome then (jNumberOrZero r.total_amount).getD 0
          else 0) := by
  unfold processRecord
  split
  · rename_i hs
    simp [hs]
  · rename_i i hs
    split
    · rename_i hst
      have hsome := List.getElem?_eq_getElem (hvalid i hs)
      rw [hst] at hsome
      simp at hsome
    · rename_i st hst
      obtain ⟨a, ha⟩ := Option.isSome_iff_exists.mp (hrev st (List.getElem?_mem hst))
      obtain ⟨t, ht⟩ := Option.isSome_iff_exists.mp hta
      simp only [statRevSum]
      rw [map_sum_set (fun s => s.revenue.getD 0) stats i st _ hst, foldItems_revenue, hs]
      simp [ha, ht, jadd]
      ring

theorem processRecord_revenue_isSome (c : RevFn) (products : List Product)
    (sIdx : String → Option Nat) (stats : List SellerStat) (r : PurchaseRecord)
    (hrev : ∀ s ∈ stats, s.revenue.isSome)
    (hta : (jNumberOrZero r.total_amount).isSome) :
    ∀ s ∈ processRecord c products sIdx stats r, s.revenue.isSome := by
  unfold processRecord
  split
  · exact hrev
  · split
    · exact hrev
    · rename_i i hs st hst
      intro s hsmem
      rcases List.mem_or_eq_of_mem_set hsmem with hmem | heq
      · exact hrev s hmem
      · subst heq
        rw [foldItems_revenue]
        obtain ⟨a, ha⟩ :=
          Option.isSome_iff_exists.mp (hrev st (List.getElem?_mem hst))
        obtain ⟨t, ht⟩ := Option.isSome_iff_exists.mp hta
        simp [ha, ht, jadd]

theorem foldRecords_revSum (c : RevFn) (products : List Product)
    (sIdx : String → Option Nat) :
    ∀ (records : List PurchaseRecord) (stats : List SellerStat),
      (∀ s ∈ stats, s.revenue.isSome) →
      (∀ r ∈ records, (jNumberOrZero r.total_amount).isSome) →
      (∀ sid i, sIdx sid = some i → i < stats.length) →
      statRevSum (records.foldl (processRecord c products sIdx) stats) =
        statRevSum stats +
          ((records.filter fun r => (sIdx r.seller_id).isSome).map
            fun r => (jNumberOrZero r.total_amount).getD 0).sum := by
  intro records
  induction records with
  | nil => intro stats _ _ _; simp
  | cons r rs ih =>
    intro stats hrev hta hvalid
    rw [List.foldl_cons]
    rw [ih (processRecord c products sIdx stats r)
      (processRecord_revenue_isSome c products sIdx stats r hrev (hta r (by simp)))
      (fun r' hr' => hta r' (by simp [hr']))
      (fun sid i hi => by
        rw [processRecord_length]; exact hvalid sid i hi)]
    rw [processRecord_revSum c products sIdx stats r hrev (hta r (by simp))
      (fun i hi => hvalid _ i hi)]
    rw [List.filter_cons]
    cases hs : sIdx r.seller_id with
    | none => simp [hs]
    | some i => simp [hs]; ring

/-! ## Finiteness (non-NaN) bookkeeping -/

theorem jNumberOrZero_isSome {v : JVal} (h : v ≠ JVal.nan) :
    (jNumberOrZero v).isSome := by
  cases v <;> simp [jNumberOrZero] at h ⊢

theorem jadd_isSome {a b : JNum} (ha : a.isSome) (hb : b.isSome) :
    (jadd a b).isSome := by
  obtain ⟨x, hx⟩ := Option.isSome_iff_exists.mp ha
  obtain ⟨y, hy⟩ := Option.isSome_iff_exists.mp hb
  simp [hx, hy, jadd]

theorem processItem_profit_isSome (c : RevFn) (products : List Product)
    (st : SellerStat) (item : LineItem)
    (hp : ∀ p ∈ products, ∃ q, p.purchase_price = JVal.num q)
    (hq : item.quantity ≠ JVal.nan)
    (hst : st.profit.isSome) :
    (processItem c products st item).profit.isSome := by
  unfold processItem
  split
  · exact hst
  · rename_i product hpi
    obtain ⟨qpp, hqpp⟩ := hp product (productIndexOf_mem hpi).1
    obtain ⟨b, hb⟩ := Option.isSome_iff_exists.mp (jNumberOrZero_isSome hq)
    obtain ⟨a, ha⟩ := Option.isSome_iff_exists.mp hst
    simp [ha, hb, hqpp, jNumber, jadd, jsub, jmul]

theorem foldItems_profit_isSome (c : RevFn) (products : List Product)
    (hp : ∀ p ∈ products, ∃ q, p.purchase_price = JVal.num q) :
    ∀ (items : List LineItem) (st : SellerStat),
      (∀ it ∈ items, it.quantity ≠ JVal.nan) → st.profit.isSome →
      (items.foldl (processItem c products) st).profit.isSome := by
  intro items
  induction items with
  | nil => intro st _ hst; exact hst
  | cons it its ih =>
    intro st hq hst
    rw [List.foldl_cons]
    exact ih _ (fun x hx => hq x (by simp [hx]))
      (processItem_profit_isSome c products st it hp (hq it (by simp)) hst)

theorem processRecord_finite (c : RevFn) (products : List Product)
    (sIdx : String → Option Nat) (stats : List SellerStat) (r : PurchaseRecord)
    (hp : ∀ p ∈ products, ∃ q, p.purchase_price = JVal.num q)
    (hta : r.total_amount ≠ JVal.nan)
    (hq : ∀ it ∈ r.items, it.quantity ≠ JVal.nan)
    (hst : ∀ s ∈ stats, s.revenue.isSome ∧ s.profit.isSome) :
    ∀ s ∈ processRecord c products sIdx stats r,
      s.revenue.isSome ∧ s.profit.isSome := by
  unfold processRecord
  split
  · exact hst
  · split
    · exact hst
    · rename_i i hs st hget
      intro s hsmem
      rcases List.mem_or_eq_of_mem_set hsmem with hmem | heq
      · exact hst s hmem
      · subst heq
        constructor
        · rw [foldItems_revenue]
          exact jadd_isSome (hst st (List.getElem?_mem hget)).1
            (jNumberOrZero_isSome hta)
        · exact foldItems_profit_isSome c products hp r.items _ hq
            (hst st (List.getElem?_mem hget)).2

theorem foldRecords_finite (c : RevFn) (products : List Product)
    (sIdx : String → Option Nat)
    (hp : ∀ p ∈ products, ∃ q, p.purchase_price = JVal.num q) :
    ∀ (records : List PurchaseRecord) (stats : List SellerStat),
      (∀ r ∈ records, r.total_amount ≠ JVal.nan ∧
        ∀ it ∈ r.items, it.quantity ≠ JVal.nan) →
      (∀ s ∈ stats, s.revenue.isSome ∧ s.profit.isSome) →
      ∀ s ∈ records.foldl (processRecord c products sIdx) stats,
        s.revenue.isSome ∧ s.profit.isSome := by
  intro records
  induction records with
  | nil => intro stats _ hst; exact hst
  | cons r rs ih =>
    intro stats hr hst
    rw [List.foldl_cons]
    exact ih _ (fun r' hr' => hr r' (by simp [hr']))
      (processRecord_finite c products sIdx stats r hp (hr r (by simp)).1
        (hr r (by simp)).2 hst)

/-! ## Claim C1: the reference bonus policy -/

/-- C1 (counterexample): the claim states the last-place rule is evaluated
before the 2nd/3rd-place rule, so that the seller at index 1 of total 2
gets bonus 0.  In the source the `index === 1 || index === 2` branch comes
first: at index 1 of 2 with profit 100 the bonus is 10, not 0. -/
theorem C1_counterexample :
    calculateBonusByProfit 1 2 ⟨JVal.num 100⟩ = some 10 ∧
      (some (10 : ℚ) : JNum) ≠ some 0 := by
  have hmax : max (0 : ℚ) 100 = 100 := max_eq_right (by norm_num)
  constructor
  · simp [calculateBonusByProfit, jNumberOrZero, jMaxZero, jmul, hmax]
    norm_num
  · simp

/-- C1 (amended): `calculateBonusByProfit` returns 15% of the clamped profit
at index 0 (also when total = 1, since that rule is checked first); 10% at
index 1 and index 2 — this rule is evaluated BEFORE the last-place rule, so
with total 2 or 3 the last seller still gets 10%; 0 at the last index
`total - 1` only when that index is ≥ 3; 5% at every other index ≥ 3; and
profit is clamped to ≥ 0 first, so non-positive profit yields bonus 0 at
every rank. -/
theorem C1_bonus_policy (index total : Nat) (q : ℚ) :
    (calculateBonusByProfit 0 total ⟨JVal.num q⟩ = some (max 0 q * (15/100))) ∧
    ((index = 1 ∨ index = 2) →
      calculateBonusByProfit index total ⟨JVal.num q⟩ = some (max 0 q * (10/100))) ∧
    (3 ≤ index → index = total - 1 →
      calculateBonusByProfit index total ⟨JVal.num q⟩ = some 0) ∧
    (3 ≤ index → index ≠ total - 1 →
      calculateBonusByProfit index total ⟨JVal.num q⟩ = some (max 0 q * (5/100))) ∧
    (q ≤ 0 → calculateBonusByProfit index total ⟨JVal.num q⟩ = some 0) := by
  refine ⟨?_, ?_, ?_, ?_, ?_⟩
  · simp [calculateBonusByProfit, jNumberOrZero, jMaxZero, jmul]
  · intro h
    have h0 : index ≠ 0 := by omega
    simp only [calculateBonusByProfit, jNumberOrZero, jMaxZero, jmul]
    rw [if_neg h0, if_pos h]
  · intro h3 hlast
    have h0 : index ≠ 0 := by omega
    have h12 : ¬(index = 1 ∨ index = 2) := by omega
    have hz : (index : ℤ) = (total : ℤ) - 1 := by omega
    simp only [calculateBonusByProfit, jNumberOrZero, jMaxZero, jmul]
    rw [if_neg h0, if_neg h12, if_pos hz]
  · intro h3 hne
    have h0 : index ≠ 0 := by omega
    have h12 : ¬(index = 1 ∨ index = 2) := by omega
    have hz : ¬((index : ℤ) = (total : ℤ) - 1) := by omega
    simp only [calculateBonusByProfit, jNumberOrZero, jMaxZero, jmul]
    rw [if_neg h0, if_neg h12, if_neg hz]
  · intro hq
    have hmax : max 0 q = 0 := max_eq_left hq
    simp only [calculateBonusByProfit, jNumberOrZero, jMaxZero, jmul]
    split_ifs <;> simp [hmax]

/-- Witness for C1: concrete evaluations discharging each hypothesis — the
10% rule at index 1 of 2, the 0 rule at last index 3 of 4, the 5% rule at
index 3 of 6, and the clamp with negative profit. -/
theorem C1_bonus_policy_witness :
    (calculateBonusByProfit 1 2 ⟨JVal.num 100⟩ = some (max 0 (100 : ℚ) * (10/100))) ∧
    (calculateBonusByProfit 3 4 ⟨JVal.num 100⟩ = some 0) ∧
    (calculateBonusByProfit 3 6 ⟨JVal.num 100⟩ = some (max 0 (100 : ℚ) * (5/100))) ∧
    (calculateBonusByProfit 2 3 ⟨JVal.num (-7)⟩ = some 0) :=
  ⟨(C1_bonus_policy 1 2 100).2.1 (Or.inl rfl),
   (C1_bonus_policy 3 4 100).2.2.1 (by decide) (by decide),
   (C1_bonus_policy 3 6 100).2.2.2.1 (by decide) (by decide),
   (C1_bonus_policy 2 3 (-7)).2.2.2.2 (by norm_num)⟩

/-! ## Claim C9: determinism -/

/-- C9: the engine is a pure function of its inputs — two invocations of
`analyzeSalesData` on identical data and identical (pure) strategies return
identical results; the source contains no randomness, clock or other
ambient state, which is what lets it be embedded as a function at all. -/
theorem C9_deterministic (d d' : DataVal) (o o' : OptionsVal)
    (hd : d = d') (ho : o = o') :
    analyzeSalesData d o = analyzeSalesData d' o' := by
  rw [hd, ho]

/-- Witness for C9 at a concrete input. -/
theorem C9_deterministic_witness :
    analyzeSalesData DataVal.falsy OptionsVal.nullish =
      analyzeSalesData DataVal.falsy OptionsVal.nullish :=
  C9_deterministic _ _ _ _ rfl rfl

/-! ## Claim C3: validation errors, and only them -/

/-- Condition (a) of the error claim, as the spec words it: the `data`
object is missing/falsy, or one of the three collections is absent,
not a sequence (both covered by `Array.isArray(...) === false`), or empty. -/
def ArrVal.isBadOrEmpty : ArrVal α → Prop
  | .notArray => True
  | .arr l => l = []

/-- The spec's `InvalidInputError` condition on the data argument. -/
def dataInvalid : DataVal → Prop
  | .falsy => True
  | .obj sv pv rv => sv.isBadOrEmpty ∨ pv.isBadOrEmpty ∨ rv.isBadOrEmpty

/-- The spec's `InvalidConfigurationError` condition on the options
argument: missing/not an object, or a strategy field absent or not callable. -/
def configInvalid : OptionsVal → Prop
  | .nullish => True
  | .nonObject => True
  | .obj cr cb => cr.isFn = false ∨ cb.isFn = false

/-- Reduction of `analyzeSalesData` once the three collections are known to
be non-empty arrays. -/
theorem analyzeSalesData_valid_data (sellers : List Seller)
    (products : List Product) (records : List PurchaseRecord) (o : OptionsVal)
    (h : (sellers.isEmpty || products.isEmpty || records.isEmpty) = false) :
    analyzeSalesData (.obj (.arr sellers) (.arr products) (.arr records)) o =
      match o with
      | .nullish => .error .optionsNotObject
      | .nonObject => .error .optionsNotObject
      | .obj cr cb =>
        match cr, cb with
        | .undef, _ => .error .optionsFieldUndefined
        | _, .undef => .error .optionsFieldUndefined
        | .notCallable, _ => .error .optionsFieldNotFunction
        | _, .notCallable => .error .optionsFieldNotFunction
        | .fn f, .fn g => .ok (runEngine f g sellers products records) := by
  unfold analyzeSalesData
  dsimp only
  rw [h]
  simp

/-- C3: `analyzeSalesData` raises an error iff the data is invalid (then the
input error) or, the data being valid, the configuration is invalid (then a
configuration error); in every other case it returns the full report of the
engine, so validation happens before any record is processed and there is no
partial result (the `Except` value is the complete outcome). -/
theorem C3_validation (d : DataVal) (o : OptionsVal) :
    ((∃ e, analyzeSalesData d o = .error e) ↔ dataInvalid d ∨ configInvalid o) ∧
    (dataInvalid d → analyzeSalesData d o = .error .invalidInput) ∧
    (¬dataInvalid d → configInvalid o →
      ∃ e, analyzeSalesData d o = .error e ∧ e.isConfigError) ∧
    (¬dataInvalid d → ¬configInvalid o →
      ∃ cr cb sellers products records,
        o = .obj (.fn cr) (.fn cb) ∧
        d = .obj (.arr sellers) (.arr products) (.arr records) ∧
        analyzeSalesData d o =
          .ok (runEngine cr cb sellers products records)) := by
  cases d with
  | falsy =>
    exact ⟨⟨fun _ => Or.inl trivial, fun _ => ⟨_, rfl⟩⟩, fun _ => rfl,
      fun hnd _ => absurd trivial hnd, fun hnd _ => absurd trivial hnd⟩
  | obj sv pv rv =>
    cases sv with
    | notArray =>
      have hdi : dataInvalid (.obj .notArray pv rv) := Or.inl trivial
      have hred : analyzeSalesData (.obj .notArray pv rv) o = .error .invalidInput := by
        cases pv <;> cases rv <;> rfl
      exact ⟨⟨fun _ => Or.inl hdi, fun _ => ⟨_, hred⟩⟩, fun _ => hred,
        fun hnd _ => absurd hdi hnd, fun hnd _ => absurd hdi hnd⟩
    | arr sellers =>
      cases pv with
      | notArray =>
        have hdi : dataInvalid (.obj (.arr sellers) .notArray rv) :=
          Or.inr (Or.inl trivial)
        have hred : analyzeSalesData (.obj (.arr sellers) .notArray rv) o =
            .error .invalidInput := by
          cases rv <;> rfl
        exact ⟨⟨fun _ => Or.inl hdi, fun _ => ⟨_, hred⟩⟩, fun _ => hred,
          fun hnd _ => absurd hdi hnd, fun hnd _ => absurd hdi hnd⟩
      | arr products =>
        cases rv with
        | notArray =>
          have hdi : dataInvalid (.obj (.arr sellers) (.arr products) .notArray) :=
            Or.inr (Or.inr trivial)
          exact ⟨⟨fun _ => Or.inl hdi, fun _ => ⟨_, rfl⟩⟩, fun _ => rfl,
            fun hnd _ => absurd hdi hnd, fun hnd _ => absurd hdi hnd⟩
        | arr records =>
          by_cases hemp : (sellers.isEmpty || products.isEmpty || records.isEmpty) = true
          · have hemp' : sellers = [] ∨ products = [] ∨ records = [] := by
              have h := hemp
              simp only [Bool.or_eq_true, List.isEmpty_iff] at h
              tauto
            have hdi : dataInvalid
                (.obj (.arr sellers) (.arr products) (.arr records)) := hemp'
            have hred : analyzeSalesData
                (.obj (.arr sellers) (.arr products) (.arr records)) o =
                .error .invalidInput := by
              unfold analyzeSalesData
              dsimp only
              rw [hemp]
              simp
            exact ⟨⟨fun _ => Or.inl hdi, fun _ => ⟨_, hred⟩⟩, fun _ => hred,
              fun hnd _ => absurd hdi hnd, fun hnd _ => absurd hdi hnd⟩
          · have hemp0 : (sellers.isEmpty || products.isEmpty || records.isEmpty) = false := by
              simpa using hemp
            have hne : ¬(sellers = [] ∨ products = [] ∨ records = []) := by
              have h := hemp
              simp only [Bool.or_eq_true, List.isEmpty_iff] at h
              tauto
            have hdi : ¬dataInvalid
                (.obj (.arr sellers) (.arr products) (.arr records)) := hne
            have hred := analyzeSalesData_valid_data sellers products records o hemp0
            cases o with
            | nullish =>
              exact ⟨⟨fun _ => Or.inr trivial, fun _ => ⟨.optionsNotObject, by rw [hred]⟩⟩,
                fun h => absurd h hdi,
                fun _ _ => ⟨.optionsNotObject, by rw [hred], trivial⟩,
                fun _ hc => absurd trivial hc⟩
            | nonObject =>
              exact ⟨⟨fun _ => Or.inr trivial, fun _ => ⟨.optionsNotObject, by rw [hred]⟩⟩,
                fun h => absurd h hdi,
                fun _ _ => ⟨.optionsNotObject, by rw [hred], trivial⟩,
                fun _ hc => absurd trivial hc⟩
            | obj cr cb =>
              cases cr with
              | undef =>
                cases cb with
                | undef =>
                  exact ⟨⟨fun _ => Or.inr (Or.inl rfl), fun _ => ⟨.optionsFieldUndefined, by rw [hred]⟩⟩,
                    fun h => absurd h hdi,
                    fun _ _ => ⟨.optionsFieldUndefined, by rw [hred], trivial⟩,
                    fun _ hc => absurd (Or.inl rfl) hc⟩
                | notCallable =>
                  exact ⟨⟨fun _ => Or.inr (Or.inl rfl), fun _ => ⟨.optionsFieldUndefined, by rw [hred]⟩⟩,
                    fun h => absurd h hdi,
                    fun _ _ => ⟨.optionsFieldUndefined, by rw [hred], trivial⟩,
                    fun _ hc => absurd (Or.inl rfl) hc⟩
                | fn g =>
                  exact ⟨⟨fun _ => Or.inr (Or.inl rfl), fun _ => ⟨.optionsFieldUndefined, by rw [hred]⟩⟩,
                    fun h => absurd h hdi,
                    fun _ _ => ⟨.optionsFieldUndefined, by rw [hred], trivial⟩,
                    fun _ hc => absurd (Or.inl rfl) hc⟩
              | notCallable =>
                cases cb with
                | undef =>
                  exact ⟨⟨fun _ => Or.inr (Or.inl rfl), fun _ => ⟨.optionsFieldUndefined, by rw [hred]⟩⟩,
                    fun h => absurd h hdi,
                    fun _ _ => ⟨.optionsFieldUndefined, by rw [hred], trivial⟩,
                    fun _ hc => absurd (Or.inl rfl) hc⟩
                | notCallable =>
                  exact ⟨⟨fun _ => Or.inr (Or.inl rfl), fun _ => ⟨.optionsFieldNotFunction, by rw [hred]⟩⟩,
                    fun h => absurd h hdi,
                    fun _ _ => ⟨.optionsFieldNotFunction, by rw [hred], trivial⟩,
                    fun _ hc => absurd (Or.inl rfl) hc⟩
                | fn g =>
                  exact ⟨⟨fun _ => Or.inr (Or.inl rfl), fun _ => ⟨.optionsFieldNotFunction, by rw [hred]⟩⟩,
                    fun h => absurd h hdi,
                    fun _ _ => ⟨.optionsFieldNotFunction, by rw [hred], trivial⟩,
                    fun _ hc => absurd (Or.inl rfl) hc⟩
              | fn f =>
                cases cb with
                | undef =>
                  exact ⟨⟨fun _ => Or.inr (Or.inr rfl), fun _ => ⟨.optionsFieldUndefined, by rw [hred]⟩⟩,
                    fun h => absurd h hdi,
                    fun _ _ => ⟨.optionsFieldUndefined, by rw [hred], trivial⟩,
                    fun _ hc => absurd (Or.inr rfl) hc⟩
                | notCallable =>
                  exact ⟨⟨fun _ => Or.inr (Or.inr rfl), fun _ => ⟨.optionsFieldNotFunction, by rw [hred]⟩⟩,
                    fun h => absurd h hdi,
                    fun _ _ => ⟨.optionsFieldNotFunction, by rw [hred], trivial⟩,
                    fun _ hc => absurd (Or.inr rfl) hc⟩
                | fn g =>
                  have hok : analyzeSalesData
                      (.obj (.arr sellers) (.arr products) (.arr records))
                      (.obj (.fn f) (.fn g)) =
                      .ok (runEngine f g sellers products records) := by
                    rw [hred]
                  refine ⟨⟨?_, ?_⟩, fun h => absurd h hdi, ?_, ?_⟩
                  · rintro ⟨e, he⟩
                    rw [hok] at he
                    exact absurd he (by simp)
                  · rintro (h | h)
                    · exact absurd h hdi
                    · rcases h with h | h <;> simp [FieldVal.isFn] at h
                  · intro _ hc
                    rcases hc with h | h <;> simp [FieldVal.isFn] at h
                  · intro _ _
                    exact ⟨f, g, sellers, products, records, rfl, rfl, hok⟩

/-- Witness for C3 at a concrete input: falsy data is rejected with the
input error, and a missing `purchase_records` array also yields an error. -/
theorem C3_validation_witness :
    analyzeSalesData DataVal.falsy OptionsVal.nullish =
        .error EngineError.invalidInput ∧
      ∃ e, analyzeSalesData
          (.obj (.arr [⟨"s1", "a", "b"⟩]) (.arr [⟨"A", JVal.num 5⟩]) .notArray)
          OptionsVal.nullish = .error e :=
  ⟨(C3_validation DataVal.falsy OptionsVal.nullish).2.1 trivial,
    ((C3_validation _ OptionsVal.nullish).1).mpr
      (Or.inl (Or.inr (Or.inr trivial)))⟩

/-! ## Claim C4: leniency (unknown seller / unknown sku) -/

/-- C4: a record whose `seller_id` matches no seller is skipped whole (the
stats list is returned unchanged — and the model is total, so no error
arises); an item whose sku matches no product leaves the stat unchanged,
while for a matched seller the record still contributes the `sales_count`
increment and the coerced `total_amount`, and the items are folded one by
one (so siblings of a skipped item still apply). -/
theorem C4_skip_semantics (c : RevFn) (sellers : List Seller)
    (products : List Product) (stats : List SellerStat)
    (r : PurchaseRecord) (item : LineItem) (st : SellerStat) :
    ((∀ s ∈ sellers, s.id ≠ r.seller_id) →
      processRecord c products (sellerIndexOf (initStats sellers)) stats r = stats) ∧
    ((∀ p ∈ products, p.sku ≠ item.sku) → processItem c products st item = st) ∧
    (∀ i, sellerIndexOf (initStats sellers) r.seller_id = some i →
      ∀ st0, stats[i]? = some st0 →
      processRecord c products (sellerIndexOf (initStats sellers)) stats r =
        stats.set i (r.items.foldl (processItem c products)
          { st0 with sales_count := st0.sales_count + 1,
                     revenue := jadd st0.revenue (jNumberOrZero r.total_amount) })) := by
  refine ⟨?_, ?_, ?_⟩
  · intro h
    have hnone : sellerIndexOf (initStats sellers) r.seller_id = none := by
      by_contra hc
      have hsome : (sellerIndexOf (initStats sellers) r.seller_id).isSome :=
        Option.ne_none_iff_isSome.mp hc
      obtain ⟨stat, hmem, hid⟩ := sellerIndexOf_isSome_iff.mp hsome
      obtain ⟨s, hs', hstat⟩ := List.mem_map.mp hmem
      apply h s hs'
      have hsid : (initStat s).id = stat.id := by rw [hstat]
      simpa [initStat] using hsid.trans hid
    simp [processRecord, hnone]
  · intro h
    simp [processItem, productIndexOf_eq_none h]
  · intro i hi st0 hst0
    simp [processRecord, hi, hst0]

/-- Witness for C4 on concrete data: a record for unknown seller "s2" does
nothing; an item for unknown sku "Z" does nothing; a record for known
seller "s1" bumps the count and revenue at position 0. -/
theorem C4_skip_semantics_witness :
    (processRecord (fun _ _ => JVal.num 0) [⟨"A", JVal.num 5⟩]
        (sellerIndexOf (initStats [⟨"s1", "a", "b"⟩]))
        (initStats [⟨"s1", "a", "b"⟩]) ⟨"s2", JVal.num 100, []⟩ =
      initStats [⟨"s1", "a", "b"⟩]) ∧
    (processItem (fun _ _ => JVal.num 0) [⟨"A", JVal.num 5⟩]
        (initStat ⟨"s1", "a", "b"⟩) ⟨"Z", JVal.num 1, JVal.num 1, JVal.num 0⟩ =
      initStat ⟨"s1", "a", "b"⟩) ∧
    (processRecord (fun _ _ => JVal.num 0) [⟨"A", JVal.num 5⟩]
        (sellerIndexOf (initStats [⟨"s1", "a", "b"⟩]))
        (initStats [⟨"s1", "a", "b"⟩]) ⟨"s1", JVal.num 100, []⟩ =
      (initStats [⟨"s1", "a", "b"⟩]).set 0
        ((⟨"s1", JVal.num 100, []⟩ : PurchaseRecord).items.foldl
          (processItem (fun _ _ => JVal.num 0) [⟨"A", JVal.num 5⟩])
          { initStat ⟨"s1", "a", "b"⟩ with
              sales_count := (initStat ⟨"s1", "a", "b"⟩).sales_count + 1,
              revenue := jadd (initStat ⟨"s1", "a", "b"⟩).revenue
                (jNumberOrZero (JVal.num 100)) })) :=
  ⟨(C4_skip_semantics _ _ _ _ _ ⟨"Z", JVal.num 1, JVal.num 1, JVal.num 0⟩
      (initStat ⟨"s1", "a", "b"⟩)).1 (by decide),
   (C4_skip_semantics (fun _ _ => JVal.num 0) [⟨"s1", "a", "b"⟩] _
      (initStats [⟨"s1", "a", "b"⟩]) ⟨"s2", JVal.num 100, []⟩ _ _).2.1 (by decide),
   (C4_skip_semantics _ _ _ _ ⟨"s1", JVal.num 100, []⟩ ⟨"Z", JVal.num 1,
      JVal.num 1, JVal.num 0⟩ (initStat ⟨"s1", "a", "b"⟩)).2.2 0 (by decide) _ rfl⟩

/-! ## Claim C8: top products -/

/-- C8: `topProducts` is the quantity-descending stable sort of the
insertion-ordered `products_sold` entries truncated to 10: its length never
exceeds 10; with numeric quantities the (pre-truncation) sort is descending
and ties keep insertion order (the filter at any fixed quantity is
unchanged); and every report entry's `top_products` is `topProducts` of the
corresponding stat's `products_sold`. -/
theorem C8_top_products (calcRevenue : RevFn) (calcBonus : BonusFn)
    (sellers : List Seller) (products : List Product)
    (records : List PurchaseRecord) (e : ReportEntry)
    (sold : List (String × JNum)) :
    (topProducts sold =
      (jsSort (cmpOf TopProduct.quantity)
        (sold.map fun p => { sku := p.1, quantity := p.2 })).take 10) ∧
    ((topProducts sold).length ≤ 10) ∧
    ((∀ p ∈ sold, p.2.isSome) →
      ((topProducts sold).Pairwise fun a b =>
        b.quantity.getD 0 ≤ a.quantity.getD 0) ∧
      ∀ q, (jsSort (cmpOf TopProduct.quantity)
          (sold.map fun p => { sku := p.1, quantity := p.2 })).filter
            (fun t => decide (t.quantity = some q)) =
        (sold.map fun p => ({ sku := p.1, quantity := p.2 } : TopProduct)).filter
            (fun t => decide (t.quantity = some q))) ∧
    (e ∈ runEngine calcRevenue calcBonus sellers products records →
      ∃ st, st ∈ rankedStats calcRevenue sellers products records ∧
        e.top_products = topProducts st.products_sold) := by
  have hallmap : (∀ p ∈ sold, p.2.isSome) →
      ∀ t ∈ (sold.map fun p => ({ sku := p.1, quantity := p.2 } : TopProduct)),
        (TopProduct.quantity t).isSome := by
    intro hall t ht
    obtain ⟨p, hp, hpt⟩ := List.mem_map.mp ht
    rw [← hpt]
    exact hall p hp
  refine ⟨rfl, ?_, fun hall => ⟨?_, ?_⟩, ?_⟩
  · simp only [topProducts, List.length_take]
    exact min_le_left _ _
  · exact ((jsSort_key_pairwise TopProduct.quantity _ (hallmap hall)).sublist
      (List.take_sublist _ _))
  · intro q
    exact jsSort_key_filter TopProduct.quantity _ (hallmap hall) q
  · intro he
    obtain ⟨i, st, hst, hest⟩ := mem_mapWithIndex he
    exact ⟨st, List.getElem?_mem hst, by rw [hest]; rfl⟩

/-- Witness for C8 on concrete data: two skus with equal quantity keep their
insertion order, and the single report entry's top product list comes from
its stat. -/
theorem C8_top_products_witness :
    ((topProducts [("A", some 2), ("B", some 2)]).Pairwise fun a b =>
        b.quantity.getD 0 ≤ a.quantity.getD 0) ∧
    ((jsSort (cmpOf TopProduct.quantity)
        ([(("A" : String), (some 2 : JNum)), ("B", some 2)].map
          fun p => { sku := p.1, quantity := p.2 })).filter
          (fun t => decide (t.quantity = some 2)) =
      ([(("A" : String), (some 2 : JNum)), ("B", some 2)].map
          fun p => ({ sku := p.1, quantity := p.2 } : TopProduct)).filter
          (fun t => decide (t.quantity = some 2))) ∧
    (∃ st, st ∈ rankedStats (fun _ _ => JVal.num 0) [⟨"s1", "a", "b"⟩]
          [⟨"A", JVal.num 5⟩] [] ∧
        ({ seller_id := "s1", name := "a b", revenue := some 0, profit := some 0,
           sales_count := 0, top_products := [], bonus := some 0 } :
            ReportEntry).top_products = topProducts st.products_sold) := by
  refine ⟨?_, ?_, ?_⟩
  · exact ((C8_top_products (fun _ _ => JVal.num 0) (fun _ _ _ => JVal.num 0)
      [] [] [] ⟨"x", "x", none, none, 0, [], none⟩
      [("A", some 2), ("B", some 2)]).2.2.1 (by simp)).1
  · exact ((C8_top_products (fun _ _ => JVal.num 0) (fun _ _ _ => JVal.num 0)
      [] [] [] ⟨"x", "x", none, none, 0, [], none⟩
      [("A", some 2), ("B", some 2)]).2.2.1 (by simp)).2 2
  · apply (C8_top_products (fun _ _ => JVal.num 0) (fun _ _ _ => JVal.num 0)
      [⟨"s1", "a", "b"⟩] [⟨"A", JVal.num 5⟩] [] _ []).2.2.2
    simp [runEngine, rankedStats, foldedStats, initStats, initStat, jsSort,
      sInsert, mapWithIndex, mkReportEntry, to2, to2v, round2, jNumberOrZero,
      topProducts]
    norm_num

/-! ## Claim C7: revenue conservation -/

theorem any_id_eq_isSome (sellers : List Seller) (rid : String) :
    (sellers.any fun s => s.id == rid) =
      (sellerIndexOf (initStats sellers) rid).isSome := by
  have h1 : (sellers.any fun s => s.id == rid) = true ↔
      ∃ s ∈ sellers, s.id = rid := by
    simp [List.any_eq_true]
  have h2 : (sellerIndexOf (initStats sellers) rid).isSome = true ↔
      ∃ s ∈ sellers, s.id = rid := by
    rw [sellerIndexOf_isSome_iff]
    constructor
    · rintro ⟨st, hmem, hid⟩
      obtain ⟨s, hs, hst⟩ := List.mem_map.mp hmem
      refine ⟨s, hs, ?_⟩
      have : (initStat s).id = st.id := by rw [hst]
      simpa [initStat] using this.trans hid
    · rintro ⟨s, hs, hid⟩
      exact ⟨initStat s, List.mem_map.mpr ⟨s, hs, rfl⟩, hid⟩
  by_cases hex : ∃ s ∈ sellers, s.id = rid
  · rw [h1.mpr hex, h2.mpr hex]
  · rw [Bool.eq_false_iff.mpr fun hc => hex (h1.mp hc),
      Bool.eq_false_iff.mpr fun hc => hex (h2.mp hc)]

/-- C7: when every record's coerced `total_amount` is an actual number, the
sum of accumulated (pre-rounding) revenues over all sellers equals the sum
of coerced `total_amount` over exactly the records whose `seller_id` matches
a known seller. -/
theorem C7_revenue_conservation (calcRevenue : RevFn) (sellers : List Seller)
    (products : List Product) (records : List PurchaseRecord)
    (hta : ∀ r ∈ records, (jNumberOrZero r.total_amount).isSome) :
    ((foldedStats calcRevenue sellers products records).map
        fun s => s.revenue.getD 0).sum =
      ((records.filter fun r => sellers.any fun s => s.id == r.seller_id).map
        fun r => (jNumberOrZero r.total_amount).getD 0).sum := by
  have hrev0 : ∀ s ∈ initStats sellers, s.revenue.isSome := by
    intro s hs
    obtain ⟨s', _, hs'⟩ := List.mem_map.mp hs
    rw [← hs']
    simp [initStat]
  have hmain := foldRecords_revSum calcRevenue products
    (sellerIndexOf (initStats sellers)) records (initStats sellers) hrev0 hta
    (fun sid i hi => sellerIndexOf_lt hi)
  have hzero : statRevSum (initStats sellers) = 0 := by
    apply List.sum_eq_zero
    intro x hx
    obtain ⟨s, hs, hsx⟩ := List.mem_map.mp hx
    obtain ⟨s', _, hs'⟩ := List.mem_map.mp hs
    rw [← hsx, ← hs']
    simp [initStat]
  have hfilter : (records.filter fun r => sellers.any fun s => s.id == r.seller_id) =
      records.filter fun r => (sellerIndexOf (initStats sellers) r.seller_id).isSome := by
    apply List.filter_congr
    intro r _
    exact any_id_eq_isSome sellers r.seller_id
  rw [hfilter]
  calc ((foldedStats calcRevenue sellers products records).map
        fun s => s.revenue.getD 0).sum
      = statRevSum (foldedStats calcRevenue sellers products records) := rfl
    _ = _ := by rw [foldedStats, hmain, hzero, zero_add]

/-- Witness for C7 on concrete data. -/
theorem C7_revenue_conservation_witness :
    ((foldedStats (fun _ _ => JVal.num 0) [⟨"s1", "a", "b"⟩] []
        [⟨"s1", JVal.num 100, []⟩]).map fun s => s.revenue.getD 0).sum =
      ((([⟨"s1", JVal.num 100, []⟩] : List PurchaseRecord).filter
        fun r => [(⟨"s1", "a", "b"⟩ : Seller)].any fun s => s.id == r.seller_id).map
        fun r => (jNumberOrZero r.total_amount).getD 0).sum :=
  C7_revenue_conservation _ _ _ _ (by simp [jNumberOrZero])

/-! ## Claim C6: ranking order and stability -/

/-- C6: with numeric accumulated profits, the ranked stats are in descending
profit order; sellers of any fixed profit keep their pre-sort relative order
(the filter at each profit value is unchanged by the sort), and the pre-sort
order is the original seller order (the fold preserves positions and ids);
the report lists exactly the ranked stats, in order. -/
theorem C6_ranking (calcRevenue : RevFn) (calcBonus : BonusFn)
    (sellers : List Seller) (products : List Product) (records : List PurchaseRecord)
    (hfin : ∀ s ∈ foldedStats calcRevenue sellers products records, s.profit.isSome) :
    ((rankedStats calcRevenue sellers products records).Pairwise fun a b =>
      b.profit.getD 0 ≤ a.profit.getD 0) ∧
    (∀ q, (rankedStats calcRevenue sellers products records).filter
        (fun s => decide (s.profit = some q)) =
      (foldedStats calcRevenue sellers products records).filter
        (fun s => decide (s.profit = some q))) ∧
    ((foldedStats calcRevenue sellers products records).map SellerStat.id =
      sellers.map Seller.id) ∧
    (runEngine calcRevenue calcBonus sellers products records =
      mapWithIndex (fun i st => mkReportEntry calcBonus
        (rankedStats calcRevenue sellers products records).length i st) 0
        (rankedStats calcRevenue sellers products records)) := by
  refine ⟨jsSort_key_pairwise SellerStat.profit _ hfin,
    fun q => jsSort_key_filter SellerStat.profit _ hfin q, ?_, rfl⟩
  unfold foldedStats
  rw [foldRecords_map_id]
  unfold initStats
  rw [List.map_map]
  exact List.map_congr_left fun a _ => rfl

/-- Witness for C6 at a concrete input (empty record list, one seller). -/
theorem C6_ranking_witness :
    ((rankedStats (fun _ _ => JVal.num 0) [⟨"s1", "a", "b"⟩] [] []).Pairwise
      fun a b => b.profit.getD 0 ≤ a.profit.getD 0) ∧
    ((foldedStats (fun _ _ => JVal.num 0) [⟨"s1", "a", "b"⟩] [] []).map SellerStat.id =
      [(⟨"s1", "a", "b"⟩ : Seller)].map Seller.id) :=
  ⟨(C6_ranking (fun _ _ => JVal.num 0) (fun _ _ _ => JVal.num 0)
      [⟨"s1", "a", "b"⟩] [] [] (by simp [foldedStats, initStats, initStat])).1,
   (C6_ranking (fun _ _ => JVal.num 0) (fun _ _ _ => JVal.num 0)
      [⟨"s1", "a", "b"⟩] [] [] (by simp [foldedStats, initStats, initStat])).2.2.1⟩

/-! ## Claim C5: report shape and zero-activity sellers -/

theorem round2_zero : round2 0 = 0 := by
  norm_num [round2]

theorem to2_isSome {a : JNum} (h : a.isSome) : (to2 a).isSome := by
  obtain ⟨q, hq⟩ := Option.isSome_iff_exists.mp h
  simp [hq, to2]

theorem runEngine_length (calcRevenue : RevFn) (calcBonus : BonusFn)
    (sellers : List Seller) (products : List Product)
    (records : List PurchaseRecord) :
    (runEngine calcRevenue calcBonus sellers products records).length =
      sellers.length := by
  unfold runEngine
  rw [mapWithIndex_length]
  unfold rankedStats
  rw [jsSort_length]
  unfold foldedStats
  rw [foldRecords_length]
  unfold initStats
  exact List.length_map _ _

/-- C5: the report has exactly one entry per input seller; and a seller `s`
none of whose records match (no record carries its id) surfaces, at whatever
rank `i` it lands after the sort, as the untouched initial stat: the report
entry at `i` has revenue 0, profit 0, sales count 0, empty top products, and
the bonus the strategy returns at rank `i` of `sellers.length`. -/
theorem C5_report_shape (calcRevenue : RevFn) (calcBonus : BonusFn)
    (sellers : List Seller) (products : List Product)
    (records : List PurchaseRecord) :
    ((runEngine calcRevenue calcBonus sellers products records).length =
      sellers.length) ∧
    (∀ (j : Nat) (s : Seller), sellers[j]? = some s →
      (∀ r ∈ records, r.seller_id ≠ s.id) →
      ∃ i, (rankedStats calcRevenue sellers products records)[i]? =
          some (initStat s) ∧
        (runEngine calcRevenue calcBonus sellers products records)[i]? =
          some (mkReportEntry calcBonus sellers.length i (initStat s)) ∧
        (mkReportEntry calcBonus sellers.length i (initStat s)).revenue = some 0 ∧
        (mkReportEntry calcBonus sellers.length i (initStat s)).profit = some 0 ∧
        (mkReportEntry calcBonus sellers.length i (initStat s)).sales_count = 0 ∧
        (mkReportEntry calcBonus sellers.length i (initStat s)).top_products = [] ∧
        (mkReportEntry calcBonus sellers.length i (initStat s)).bonus =
          to2v (calcBonus i sellers.length (initStat s))) := by
  have hrlen : (rankedStats calcRevenue sellers products records).length =
      sellers.length := by
    unfold rankedStats
    rw [jsSort_length]
    unfold foldedStats
    rw [foldRecords_length]
    unfold initStats
    exact List.length_map _ _
  refine ⟨runEngine_length _ _ _ _ _, ?_⟩
  intro j s hj hr
  have hstats0 : (initStats sellers)[j]? = some (initStat s) := by
    unfold initStats
    rw [List.getElem?_map, hj, Option.map_some']
  have huntouched : (foldedStats calcRevenue sellers products records)[j]? =
      some (initStat s) := by
    unfold foldedStats
    rw [foldRecords_getElem_ne]
    · exact hstats0
    · intro r hrmem i hi
      obtain ⟨t, ht, hid⟩ := sellerIndexOf_some hi
      intro hij
      subst hij
      rw [hstats0] at ht
      apply hr r hrmem
      rw [← hid, ← Option.some.inj ht]
      simp [initStat]
  have hmemf : initStat s ∈ foldedStats calcRevenue sellers products records :=
    List.getElem?_mem huntouched
  have hmemr : initStat s ∈ rankedStats calcRevenue sellers products records :=
    (jsSort_perm _ _).mem_iff.mpr hmemf
  obtain ⟨i, hilt, hieq⟩ := List.getElem_of_mem hmemr
  have hranki : (rankedStats calcRevenue sellers products records)[i]? =
      some (initStat s) := by
    rw [List.getElem?_eq_getElem hilt, hieq]
  refine ⟨i, hranki, ?_, ?_, ?_, rfl, rfl, rfl⟩
  · show (mapWithIndex _ 0 _)[i]? = _
    rw [mapWithIndex_getElem?, hranki, Option.map_some', Nat.zero_add, hrlen]
  · show to2 (some 0) = some 0
    simp [to2, round2_zero]
  · show to2 (some 0) = some 0
    simp [to2, round2_zero]

/-- Witness for C5: one seller, one non-matching record. -/
theorem C5_report_shape_witness :
    ((runEngine (fun _ _ => JVal.num 0) (fun _ _ _ => JVal.num 0)
        [⟨"s1", "a", "b"⟩] [⟨"A", JVal.num 5⟩]
        [⟨"s2", JVal.num 100, []⟩]).length = 1) ∧
    (∃ i, (rankedStats (fun _ _ => JVal.num 0) [⟨"s1", "a", "b"⟩]
          [⟨"A", JVal.num 5⟩] [⟨"s2", JVal.num 100, []⟩])[i]? =
        some (initStat ⟨"s1", "a", "b"⟩) ∧
      (runEngine (fun _ _ => JVal.num 0) (fun _ _ _ => JVal.num 0)
          [⟨"s1", "a", "b"⟩] [⟨"A", JVal.num 5⟩] [⟨"s2", JVal.num 100, []⟩])[i]? =
        some (mkReportEntry (fun _ _ _ => JVal.num 0) 1 i (initStat ⟨"s1", "a", "b"⟩)) ∧
      (mkReportEntry (fun _ _ _ => JVal.num 0) 1 i (initStat ⟨"s1", "a", "b"⟩)).revenue = some 0 ∧
      (mkReportEntry (fun _ _ _ => JVal.num 0) 1 i (initStat ⟨"s1", "a", "b"⟩)).profit = some 0 ∧
      (mkReportEntry (fun _ _ _ => JVal.num 0) 1 i (initStat ⟨"s1", "a", "b"⟩)).sales_count = 0 ∧
      (mkReportEntry (fun _ _ _ => JVal.num 0) 1 i (initStat ⟨"s1", "a", "b"⟩)).top_products = [] ∧
      (mkReportEntry (fun _ _ _ => JVal.num 0) 1 i (initStat ⟨"s1", "a", "b"⟩)).bonus =
        to2v ((fun _ _ _ => JVal.num 0) i 1 (initStat ⟨"s1", "a", "b"⟩))) :=
  ⟨(C5_report_shape (fun _ _ => JVal.num 0) (fun _ _ _ => JVal.num 0)
      [⟨"s1", "a", "b"⟩] [⟨"A", JVal.num 5⟩] [⟨"s2", JVal.num 100, []⟩]).1,
   (C5_report_shape (fun _ _ => JVal.num 0) (fun _ _ _ => JVal.num 0)
      [⟨"s1", "a", "b"⟩] [⟨"A", JVal.num 5⟩] [⟨"s2", JVal.num 100, []⟩]).2 0
      ⟨"s1", "a", "b"⟩ rfl (by decide)⟩

/-! ## Claim C2: finiteness of revenue and profit -/

/-- C2 (counterexample): the claim says every numeric coercion performed
during folding defaults missing or invalid values to 0, so revenue/profit
are never NaN.  But `Number(product.purchase_price)` has no default at all:
with an absent `purchase_price` the cost is NaN and the accepted input below
produces a report whose profit is NaN (`none`), not a finite number. -/
theorem C2_counterexample :
    analyzeSalesData
      (.obj (.arr [⟨"s1", "a", "b"⟩])
            (.arr [⟨"A", JVal.missing⟩])
            (.arr [⟨"s1", JVal.num 100, [⟨"A", JVal.num 2, JVal.num 20, JVal.num 0⟩]⟩]))
      (.obj (.fn fun _ _ => JVal.num 40) (.fn fun _ _ _ => JVal.num 0)) =
      .ok [{ seller_id := "s1", name := "a b", revenue := some 100, profit := none,
             sales_count := 1,
             top_products := [{ sku := "A", quantity := some 2 }],
             bonus := some 0 }] := by
  simp [analyzeSalesData, runEngine, rankedStats, foldedStats, initStats, initStat,
    processRecord, processItem, sellerIndexOf, lastIdxFrom, productIndexOf,
    jsSort, sInsert, cmpOf, jadd, jsub, jmul, jNumber, jNumberOrZero, jOrZero,
    soldSet, soldFalsy, topProducts, mapWithIndex, mkReportEntry, to2, to2v, round2]
  norm_num

/-- C2 (amended): provided every record's `total_amount` and every item's
`quantity` is absent or numeric (not NaN-coercing), and every product's
`purchase_price` is numeric, the accumulated and rounded revenue and profit
of every report entry are finite (`some _`), never NaN; the revenue
strategy's return value needs no such assumption because `Number(...) || 0`
always defaults it to a number. -/
theorem C2_finiteness (calcRevenue : RevFn) (calcBonus : BonusFn)
    (sellers : List Seller) (products : List Product)
    (records : List PurchaseRecord) (rep : List ReportEntry)
    (hta : ∀ r ∈ records, r.total_amount ≠ JVal.nan)
    (hq : ∀ r ∈ records, ∀ it ∈ r.items, it.quantity ≠ JVal.nan)
    (hpp : ∀ p ∈ products, ∃ qp, p.purchase_price = JVal.num qp)
    (hok : analyzeSalesData (.obj (.arr sellers) (.arr products) (.arr records))
      (.obj (.fn calcRevenue) (.fn calcBonus)) = .ok rep) :
    ∀ e ∈ rep, e.revenue.isSome ∧ e.profit.isSome := by
  by_cases hemp : (sellers.isEmpty || products.isEmpty || records.isEmpty) = true
  · unfold analyzeSalesData at hok
    dsimp only at hok
    rw [hemp] at hok
    simp at hok
  · have hemp0 : (sellers.isEmpty || products.isEmpty || records.isEmpty) = false := by
      simpa using hemp
    rw [analyzeSalesData_valid_data _ _ _ _ hemp0] at hok
    have hrep : rep = runEngine calcRevenue calcBonus sellers products records := by
      have := Except.ok.inj hok
      rw [this]
    subst hrep
    intro e he
    obtain ⟨i, st, hst, hest⟩ := mem_mapWithIndex he
    have hmemr : st ∈ rankedStats calcRevenue sellers products records :=
      List.getElem?_mem hst
    have hmemf : st ∈ foldedStats calcRevenue sellers products records :=
      (jsSort_perm _ _).mem_iff.mp hmemr
    have hfin0 : ∀ s ∈ initStats sellers, s.revenue.isSome ∧ s.profit.isSome := by
      intro s hs
      obtain ⟨s', _, hs'⟩ := List.mem_map.mp hs
      rw [← hs']
      simp [initStat]
    have hfin := foldRecords_finite calcRevenue products
      (sellerIndexOf (initStats sellers)) hpp records (initStats sellers)
      (fun r hr => ⟨hta r hr, hq r hr⟩) hfin0 st hmemf
    rw [hest]
    exact ⟨to2_isSome hfin.1, to2_isSome hfin.2⟩

/-- Witness for C2 on the spec's own scenario (all fields numeric): the
single entry's revenue and profit are finite. -/
theorem C2_finiteness_witness :
    ({ seller_id := "s1", name := "a b", revenue := some 100, profit := some 30,
       sales_count := 1,
       top_products := [{ sku := "A", quantity := some 2 }],
       bonus := some 0 } : ReportEntry).revenue.isSome ∧
    ({ seller_id := "s1", name := "a b", revenue := some 100, profit := some 30,
       sales_count := 1,
       top_products := [{ sku := "A", quantity := some 2 }],
       bonus := some 0 } : ReportEntry).profit.isSome :=
  C2_finiteness (fun _ _ => JVal.num 40) (fun _ _ _ => JVal.num 0)
    [⟨"s1", "a", "b"⟩] [⟨"A", JVal.num 5⟩]
    [⟨"s1", JVal.num 100, [⟨"A", JVal.num 2, JVal.num 20, JVal.num 0⟩]⟩]
    [{ seller_id := "s1", name := "a b", revenue := some 100, profit := some 30,
       sales_count := 1,
       top_products := [{ sku := "A", quantity := some 2 }],
       bonus := some 0 }]
    (by simp) (by simp) (by simp)
    (by
      simp [analyzeSalesData, runEngine, rankedStats, foldedStats, initStats,
        initStat, processRecord, processItem, sellerIndexOf, lastIdxFrom,
        productIndexOf, jsSort, sInsert, cmpOf, jadd, jsub, jmul, jNumber,
        jNumberOrZero, jOrZero, soldSet, soldFalsy, topProducts, mapWithIndex,
        mkReportEntry, to2, to2v, round2]
      norm_num)
    _ (by simp)
